import Mathlib

/-!
Shallow embedding of the Masterminds/formenc form decoder
(encoding/form/encoding.go) and proofs about its behaviour.

Conventions of the embedding:
* Go strings are Lean `String`; the character-level loops of the source
  are translated to structural recursion over `String.data`.
* `url.Values` (a map from string to string list) is modelled as an
  association list `List (String × List String)`; quantifying over the
  list covers every iteration order of the Go map.
* Go `error` values are the inductive `GoError`; the dynamic type switch
  `e.(*ValidationError)` of `walk` becomes a match on the constructor.
* Go panics (out-of-range indexing) are an explicit `panicked` outcome
  that propagates, since no `recover` guards the struct path.
* Machine integers are `Nat`/`Int` with the exact bound checks of
  `strconv` (`IntSize` = 64, as on a 64-bit platform).
* Struct fields of floating-point kind are not modelled: no claim below
  depends on a float value, and float semantics are outside the shallow
  embedding. All other kinds handled by `assignToStructField` are
  present.
-/

namespace Form

/-! ### String helpers mirroring the Go standard library -/

/-- Character-level worker for `strings.Split(str, ",")`. -/
def splitCommaAux : List Char → List Char → List String
  | acc, [] => [String.mk acc.reverse]
  | acc, c :: cs =>
    if c = ',' then String.mk acc.reverse :: splitCommaAux [] cs
    else splitCommaAux (c :: acc) cs

/-- Go `strings.Split(str, ",")`. On the empty string it yields `[""]`. -/
def splitComma (s : String) : List String :=
  splitCommaAux [] s.data

/-- Boolean list prefix test (worker for `strings.HasPrefix`). -/
def listHasPfx : List Char → List Char → Bool
  | [], _ => true
  | _ :: _, [] => false
  | p :: ps, c :: cs => p = c && listHasPfx ps cs

/-- Go `strings.HasPrefix(s, pfx)`. -/
def goHasPfx (s pfx : String) : Bool :=
  listHasPfx pfx.data s.data

/-- Go `strings.TrimPrefix(s, pfx)`. -/
def goTrimPfx (s pfx : String) : String :=
  if goHasPfx s pfx then String.mk (s.data.drop pfx.data.length) else s

/-! ### Tags (struct `Tag` and `parseTag`) -/

/-- The `Tag` struct of the source. The source field names are
`Name`, `Prefix`, `Suffix`, `Omit`, `Ignore`, `Group`; the two
middle ones are abbreviated `pfx`/`sfx` here. The unexported
`validator`/`unmarshaler` function fields are never assigned anywhere
in the source and are omitted. -/
structure Tag where
  name : String
  pfx : String
  sfx : String
  omitempty : Bool
  ignore : Bool
  group : Bool
deriving DecidableEq, Repr

/-- The zero value `Tag` (Go `&Tag` literal with no fields set). -/
def zeroTag : Tag := ⟨"", "", "", false, false, false⟩

/-- One iteration of the option loop of `parseTag`: matches a single
segment after the first (`omitempty`, `prefix=X`, `suffix=X`;
anything else leaves the tag unchanged). -/
def applyTagOption (t : Tag) (p : String) : Tag :=
  if p = "omitempty" then { t with omitempty := true }
  else if goHasPfx p "prefix=" then { t with pfx := goTrimPfx p "prefix=" }
  else if goHasPfx p "suffix=" then { t with sfx := goTrimPfx p "suffix=" }
  else t

/-- Go `parseTag`. Splits on commas; the first segment selects the
marker (`-` ignore, `+` group, else name), the rest are folded with
`applyTagOption`. -/
def parseTag (str : String) : Tag :=
  let parts := splitComma str
  if parts.length = 1 ∧ parts.headD "" = "" then zeroTag
  else
    let n := parts.headD ""
    let t0 :=
      if n = "+" then { zeroTag with group := true }
      else if n = "-" then { zeroTag with ignore := true }
      else { zeroTag with name := n }
    (parts.drop 1).foldl applyTagOption t0

/-! ### Error model -/

/-- Go `ValidationError` (field and message). -/
structure ValidationError where
  field : String
  message : String
deriving DecidableEq, Repr

/-- The dynamic type of a Go `error` value that can flow through the
decoder: a `*ValidationError`, a `CompoundValidationError`, a plain
`errors.New`/`fmt.Errorf` error, or a `*strconv.NumError`. -/
inductive GoError where
  | vErr (e : ValidationError)
  | compound (errs : List ValidationError)
  | fatalMsg (msg : String)
  | numErr (fn num reason : String)
deriving DecidableEq, Repr

/-- Builds the `strconv` syntax error for function `fn` on input `num`. -/
def syntaxErr (fn num : String) : GoError := .numErr fn num "invalid syntax"

/-- Builds the `strconv` range error for function `fn` on input `num`. -/
def rangeErr (fn num : String) : GoError := .numErr fn num "value out of range"

/-! ### strconv embedding (ParseUint / ParseInt with base 0, bitSize 0,
on a 64-bit platform, and ParseBool) -/

/-- Go `strconv` lower(c): c | ('x' - 'X'). -/
def lowerCh (c : Char) : Char := Char.ofNat (c.toNat ||| 32)

/-- Digit classification of the ParseUint loop: decimal digits, then
letters via `lowerCh`; `none` is the syntax-error branch. -/
def digitVal (c : Char) : Option Nat :=
  if '0' ≤ c ∧ c ≤ '9' then some (c.toNat - '0'.toNat)
  else if 'a' ≤ lowerCh c ∧ lowerCh c ≤ 'z' then some ((lowerCh c).toNat - 'a'.toNat + 10)
  else none

/-- Outcome of the ParseUint digit loop. -/
inductive PuOut where
  | val (n : Nat) (underscores : Bool)
  | errSyntax
  | errRange
deriving DecidableEq, Repr

/-- The ParseUint accumulation loop. `maxVal / base + 1` is the Go
`cutoff`; underscores are skipped (base-0 call) and recorded. -/
def puLoop (base maxVal : Nat) : List Char → Nat → Bool → PuOut
  | [], n, us => .val n us
  | c :: cs, n, us =>
    if c = '_' then puLoop base maxVal cs n true
    else
      match digitVal c with
      | none => .errSyntax
      | some d =>
        if base ≤ d then .errSyntax
        else if maxVal / base + 1 ≤ n then .errRange
        else if maxVal < n * base + d then .errRange
        else puLoop base maxVal cs (n * base + d) us

/-- State loop of Go `underscoreOK`; `saw` is the class of the last
character (caret = beginning, digit, underscore, other). -/
def usOKLoop (hex : Bool) : Char → List Char → Bool
  | saw, [] => saw ≠ '_'
  | saw, c :: cs =>
    if ('0' ≤ c ∧ c ≤ '9') ∨ (hex ∧ 'a' ≤ lowerCh c ∧ lowerCh c ≤ 'f') then
      usOKLoop hex '0' cs
    else if c = '_' then
      if saw ≠ '0' then false else usOKLoop hex '_' cs
    else if saw = '_' then false
    else usOKLoop hex '!' cs

/-- Go `strconv.underscoreOK`: underscores may only separate digits
(or follow a base prefix). -/
def underscoreOK (s : String) : Bool :=
  let cs1 :=
    match s.data with
    | c :: rest => if c = '-' ∨ c = '+' then rest else c :: rest
    | [] => []
  match cs1 with
  | c0 :: c1 :: rest =>
    if c0 = '0' ∧ (lowerCh c1 = 'b' ∨ lowerCh c1 = 'o' ∨ lowerCh c1 = 'x') then
      usOKLoop (lowerCh c1 = 'x') '0' rest
    else usOKLoop false '^' cs1
  | _ => usOKLoop false '^' cs1

/-- Base detection of ParseUint for base argument 0: `0b`/`0o`/`0x`
prefixes (needing at least one further character), else a leading `0`
selects octal, else decimal. Returns the base and remaining digits. -/
def puBase0 (cs : List Char) : Nat × List Char :=
  match cs with
  | '0' :: c1 :: rest =>
    if lowerCh c1 = 'b' ∧ rest ≠ [] then (2, rest)
    else if lowerCh c1 = 'o' ∧ rest ≠ [] then (8, rest)
    else if lowerCh c1 = 'x' ∧ rest ≠ [] then (16, rest)
    else (8, c1 :: rest)
  | '0' :: [] => (8, [])
  | _ => (10, cs)

/-- Go `strconv.ParseUint(s, 0, 0)` on a 64-bit platform: returns the
value and the error slot of the Go pair. -/
def parseUintB0 (s : String) : Nat × Option GoError :=
  if s.data = [] then (0, some (syntaxErr "ParseUint" s))
  else
    let bd := puBase0 s.data
    let maxVal : Nat := 2 ^ 64 - 1
    match puLoop bd.1 maxVal bd.2 0 false with
    | .errSyntax => (0, some (syntaxErr "ParseUint" s))
    | .errRange => (maxVal, some (rangeErr "ParseUint" s))
    | .val n us =>
      if us ∧ ¬ underscoreOK s then (0, some (syntaxErr "ParseUint" s))
      else (n, none)

/-- Tests whether a `GoError` is the strconv range error (the
`err.(*NumError).Err != ErrRange` check of ParseInt). -/
def isRangeErr : GoError → Bool
  | .numErr _ _ reason => reason = "value out of range"
  | _ => false

/-- ParseInt rewrites the Func and Num of an error it forwards from
ParseUint to its own name and original input. -/
def reFnParseInt (s0 : String) : GoError → GoError
  | .numErr _ _ reason => .numErr "ParseInt" s0 reason
  | e => e

/-- Final signed range clamp of ParseInt (cutoff = 1 << 63). -/
def signedRangeChk (neg : Bool) (un : Nat) (s0 : String) : Int × Option GoError :=
  let cutoff : Nat := 2 ^ 63
  if ¬neg ∧ cutoff ≤ un then ((cutoff : Int) - 1, some (rangeErr "ParseInt" s0))
  else if neg ∧ cutoff < un then (-(cutoff : Int), some (rangeErr "ParseInt" s0))
  else if neg then (-(un : Int), none)
  else ((un : Int), none)

/-- Go `strconv.ParseInt(s, 0, 0)` on a 64-bit platform. -/
def parseIntB0 (s : String) : Int × Option GoError :=
  if s.data = [] then (0, some (syntaxErr "ParseInt" s))
  else
    let ns :=
      match s.data with
      | '+' :: rest => (false, String.mk rest)
      | '-' :: rest => (true, String.mk rest)
      | _ => (false, s)
    let pu := parseUintB0 ns.2
    match pu.2 with
    | some e =>
      if isRangeErr e then signedRangeChk ns.1 pu.1 s
      else (0, some (reFnParseInt s e))
    | none => signedRangeChk ns.1 pu.1 s

/-- Go `strconv.ParseBool`. -/
def parseBool (s : String) : Bool × Option GoError :=
  if s = "1" ∨ s = "t" ∨ s = "T" ∨ s = "true" ∨ s = "TRUE" ∨ s = "True" then (true, none)
  else if s = "0" ∨ s = "f" ∨ s = "F" ∨ s = "false" ∨ s = "FALSE" ∨ s = "False" then (false, none)
  else (false, some (syntaxErr "ParseBool" s))

/-! ### Struct model

A destination struct is a list of field descriptions (the reflected
type together with the method set relevant to each field) and a
parallel list of current field values. The hooks are stored with the
field they belong to, which mirrors the Go lookup
`MethodByName("FormValidate" + f.Name)` / `MethodByName("FormSet" + f.Name)`:
Go struct fields have pairwise distinct names, so the lookup is a
per-field association. A validator is modelled as a pure function per
the documented contract (a validator must not mutate the values or the
receiver); a setter receives the submitted values and the whole value
list of the receiver and may mutate any of it, returning the Go error
slot and the new values. -/

/-- The kinds of struct fields distinguished by `assignToStructField`.
`intK`/`uintK` stand for the 64-bit `int`/`uint` kinds; the narrower
widths and the float kinds are not modelled (see the header).
`sliceOtherK` is a slice field that is not `[]string`; `otherK` is any
remaining kind (nested struct, map, ...). -/
inductive FieldKind where
  | strK
  | intK
  | uintK
  | boolK
  | strListK
  | sliceOtherK
  | otherK
deriving DecidableEq, Repr

/-- A current field value. `vOther` is the (never assigned) value of a
field of `sliceOtherK`/`otherK` kind. -/
inductive FieldValue where
  | vStr (s : String)
  | vInt (i : Int)
  | vUint (n : Nat)
  | vBool (b : Bool)
  | vStrList (l : List String)
  | vOther
deriving DecidableEq, Repr

/-- One declared struct field: its Go identifier, its raw `form` tag
string (empty when the tag is absent), its kind, and the optional
validator and setter hooks found by name on the pointer type. -/
structure FieldSpec where
  goName : String
  rawTag : String
  kind : FieldKind
  validator : Option (List String → Option ValidationError)
  setter : Option (List String → List FieldValue → Option GoError × List FieldValue)

/-- The error slot of a call, or a propagating panic. Used both for
`findIn`/`assignToStruct` (Go `error` results) and for `walk`. -/
inductive ErrOut where
  | ok
  | err (e : GoError)
  | panicked (msg : String)

/-- Result of `assignToStructField`: the returned error slot plus the
value written to the field (`none` when the field is left unchanged),
or a panic from an out-of-range index. -/
inductive FieldOut where
  | res (e : Option GoError) (v : Option FieldValue)
  | panicked (msg : String)
deriving DecidableEq, Repr

/-- The Go runtime message for indexing `val[0]` on an empty slice. -/
def outOfRangeMsg : String := "runtime error: index out of range [0] with length 0"

/-- Go `empty`: true if the list has length 0, or length 1 with an
empty first element. -/
def empty (v : List String) : Bool :=
  match v with
  | [] => true
  | [x] => x = ""
  | _ => false

/-- Go `assignToInt` (string conversion part). The `CanSet` guard of
the source cannot fire on this call path: the value passed is a field
of the addressable struct behind the non-nil pointer checked by
`Unmarshal`. -/
def assignToInt (val : String) : Option GoError × Option Int :=
  match parseIntB0 val with
  | (_, some e) => (some e, none)
  | (n, none) => (none, some n)

/-- Go `assignToUint` (string conversion part); same remark on `CanSet`
as for `assignToInt`. -/
def assignToUint (val : String) : Option GoError × Option Nat :=
  match parseUintB0 val with
  | (_, some e) => (some e, none)
  | (n, none) => (none, some n)

/-- Go `assignToStructField`: per-kind coercion of the value list into
the field. String and bool index `val[0]` without a guard (panic on an
empty list); the numeric kinds substitute `"0"` for `empty` input; the
bool kind writes the parsed value even when the parse failed, as the
source sets before inspecting the error. -/
def assignToStructField (kind : FieldKind) (val : List String) : FieldOut :=
  match kind with
  | .strK =>
    match val with
    | [] => .panicked outOfRangeMsg
    | v0 :: _ => .res none (some (.vStr v0))
  | .intK =>
    let vv := if empty val then "0" else val.headD "0"
    match assignToInt vv with
    | (some e, _) => .res (some e) none
    | (none, n) => .res none (n.map FieldValue.vInt)
  | .uintK =>
    let vv := if empty val then "0" else val.headD "0"
    match assignToUint vv with
    | (some e, _) => .res (some e) none
    | (none, n) => .res none (n.map FieldValue.vUint)
  | .boolK =>
    match val with
    | [] => .panicked outOfRangeMsg
    | v0 :: _ =>
      let be := parseBool v0
      .res be.2 (some (.vBool be.1))
  | .strListK => .res none (some (.vStrList val))
  | .sliceOtherK => .res (some (.fatalMsg "Only string slices are supported.")) none
  | .otherK => .res (some (.fatalMsg "Unsupported kind")) none

/-- The setter-or-coercion step of `assignToStruct` once the matched
field (at index `i`) has passed validation: a setter is called through
`callFormMethod` and its error returned; otherwise the raw assignment
runs and its error is dropped (the source only logs it and returns
nil). -/
def assignMatched (vals : List FieldValue) (values : List String) (i : Nat)
    (f : FieldSpec) : ErrOut × List FieldValue :=
  match f.setter with
  | some fs =>
    let r := fs values vals
    match r.1 with
    | some e => (.err e, r.2)
    | none => (.ok, r.2)
  | none =>
    match assignToStructField f.kind values with
    | .panicked m => (.panicked m, vals)
    | .res _ none => (.ok, vals)
    | .res _ (some v) => (.ok, vals.set i v)

/-- The body of the `tag.Name == key` branch of `assignToStruct`: run
the validator if present (returning its error without touching the
field), then `assignMatched`. -/
def processField (vals : List FieldValue) (values : List String) (i : Nat)
    (f : FieldSpec) : ErrOut × List FieldValue :=
  match f.validator with
  | some fv =>
    match fv values with
    | some ve => (.err (.vErr ve), vals)
    | none => assignMatched vals values i f
  | none => assignMatched vals values i f

/-- The tag of a field as resolved by the field loop of
`assignToStruct` (and of `Tags`): a field that is not ignored and has
no explicit tag name takes its own Go identifier as name. -/
def resolvedTag (f : FieldSpec) : Tag :=
  let tag := parseTag f.rawTag
  if ¬tag.ignore ∧ tag.name = "" then { tag with name := f.goName } else tag

/-- The field loop of `assignToStruct`, carrying the index of the
field under inspection. The first field whose resolved tag name equals
the key is processed and the loop returns; if no field matches, the
key is skipped and nil returned. -/
def assignToStructGo (vals : List FieldValue) (key : String) (values : List String)
    (i : Nat) : List FieldSpec → ErrOut × List FieldValue
  | [] => (.ok, vals)
  | f :: rest =>
    if (resolvedTag f).name = key then processField vals values i f
    else assignToStructGo vals key values (i + 1) rest

/-- Go `assignToStruct` on a struct destination. -/
def assignToStruct (fields : List FieldSpec) (vals : List FieldValue)
    (key : String) (values : List String) : ErrOut × List FieldValue :=
  assignToStructGo vals key values 0 fields

/-- Go `Tags`: the resolved tag of every declared field, in order. -/
def Tags (fields : List FieldSpec) : List Tag :=
  fields.map resolvedTag

/-- Reference search mirroring the match of the field loop: the first
field (with its index) whose resolved tag name equals the key. -/
def findFieldFrom (key : String) (i : Nat) : List FieldSpec → Option (Nat × FieldSpec)
  | [] => none
  | f :: rest =>
    if (resolvedTag f).name = key then some (i, f)
    else findFieldFrom key (i + 1) rest

/-- First field of the struct resolving to `key`, with its index. -/
def findField (key : String) (fields : List FieldSpec) : Option (Nat × FieldSpec) :=
  findFieldFrom key 0 fields

/-! ### Map destinations and the destination universe -/

/-- A value stored in a `map[string]interface` destination: a single
string (one submitted value) or a string list (several). -/
inductive MapVal where
  | single (s : String)
  | multi (l : List String)
deriving DecidableEq, Repr

/-- Association-list update used to model `SetMapIndex`. -/
def mapSet (m : List (String × MapVal)) (key : String) (v : MapVal) :
    List (String × MapVal) :=
  match m with
  | [] => [(key, v)]
  | (k, w) :: rest => if k = key then (key, v) :: rest else (k, w) :: mapSet rest key v

/-- Go `assignToMap` for a `map[string]interface` destination holding
string or string-list values: one value stores the string, several
store the list, zero values store nothing; the error slot is always
nil (the `recover` in the source cannot modify the returned error, as
its own FIXME notes). -/
def assignToMap (m : List (String × MapVal)) (key : String) (values : List String) :
    ErrOut × List (String × MapVal) :=
  match values with
  | [] => (.ok, m)
  | [v] => (.ok, mapSet m key (.single v))
  | vs => (.ok, mapSet m key (.multi vs))

/-- The destination behind the pointer handed to `Unmarshal`: a
struct (field specs plus current values), a supported
`map[string]interface` map, or any other type (whose reflected kind is
neither struct nor supported map), carrying its type name for the
error message. -/
inductive Dest where
  | structDest (fields : List FieldSpec) (vals : List FieldValue)
  | mapDest (m : List (String × MapVal))
  | otherDest (typeName : String)

/-! ### The decode engine: findIn, walk, Unmarshal -/

/-- Go `findIn`: dispatch on the destination kind; anything that is
neither a struct nor a supported map is the fatal configuration
error. -/
def findIn (d : Dest) (key : String) (values : List String) : ErrOut × Dest :=
  match d with
  | .structDest fields vals =>
    let r := assignToStruct fields vals key values
    (r.1, .structDest fields r.2)
  | .mapDest m =>
    let r := assignToMap m key values
    (r.1, .mapDest r.2)
  | .otherDest t =>
    (.err (.fatalMsg ("object " ++ t ++ " cannot be used to store values")), d)

/-- The key loop of Go `walk`, carrying the accumulated validation
errors: a nil result continues, a `*ValidationError` is appended and
the loop continues, any other error returns at once; at the end a
non-empty accumulation is returned as a `CompoundValidationError`. -/
def walkAux (verrs : List ValidationError) (d : Dest) :
    List (String × List String) → ErrOut × Dest
  | [] => (if verrs.isEmpty then .ok else .err (.compound verrs), d)
  | (k, vs) :: rest =>
    match findIn d k vs with
    | (.ok, d1) => walkAux verrs d1 rest
    | (.err (.vErr ve), d1) => walkAux (verrs ++ [ve]) d1 rest
    | (.err e, d1) => (.err e, d1)
    | (.panicked m, d1) => (.panicked m, d1)

/-- Go `walk`: the key loop started with no accumulated errors. -/
def walk (d : Dest) (v : List (String × List String)) : ErrOut × Dest :=
  walkAux [] d v

/-- The argument of `Unmarshal`: a valid (non-nil) pointer to a
destination, or anything that is not a non-nil pointer. -/
inductive Receiver where
  | ptrTo (d : Dest)
  | notPtr

/-- Go `Unmarshal`: reject a receiver that is not a non-nil pointer,
else walk the values. The final destination is returned alongside to
expose the mutation of the record. -/
def Unmarshal (v : List (String × List String)) (o : Receiver) : ErrOut × Option Dest :=
  match o with
  | .notPtr => (.err (.fatalMsg "unmarshal requires a pointer to a receiver"), none)
  | .ptrTo d =>
    let r := walk d v
    (r.1, some r.2)

/-- Specification-side collector (for the claim on error aggregation):
the validation failures encountered by the scan, in scan order, defined
when the scan runs to completion, and `none` when a fatal error or a
panic aborts it. Follows the wording: validation errors are collected
across the whole input; fatal errors halt processing. -/
def scanVErrs (d : Dest) : List (String × List String) → Option (List ValidationError)
  | [] => some []
  | (k, vs) :: rest =>
    match findIn d k vs with
    | (.ok, d1) => scanVErrs d1 rest
    | (.err (.vErr ve), d1) => (scanVErrs d1 rest).map (fun l => ve :: l)
    | (.err _, _) => none
    | (.panicked _, _) => none

/-! ### Concrete fixtures

Small concrete structs used to evaluate the engine at specific inputs.
They mirror the shapes of the example and test structs of the
repository (a person with tagged string fields, an address with a
validator and a setter, an integer field). -/

/-- Struct with a tagged string field and an untagged string field
(the FirstName/LastName example). -/
def pFields : List FieldSpec :=
  [⟨"FirstName", "first_name", .strK, none, none⟩,
   ⟨"LastName", "", .strK, none, none⟩]

/-- Struct with a single integer field tagged `age`. -/
def aFields : List FieldSpec := [⟨"Age", "age", .intK, none, none⟩]

/-- Struct whose first field carries the ignore tag `-` and whose
second is a normal tagged field. -/
def iFields : List FieldSpec :=
  [⟨"Processed", "-", .strK, none, none⟩,
   ⟨"Name", "name", .strK, none, none⟩]

/-- A validation error used by the state validator fixture. -/
def vErrState : ValidationError := ⟨"state", "state is required"⟩

/-- Validator fixture: rejects an empty (or absent) first value. -/
def fvState : List String → Option ValidationError :=
  fun vs => if vs.headD "" = "" then some vErrState else none

/-- Struct with a validated field and a plain field. -/
def sFields : List FieldSpec :=
  [⟨"State", "state", .strK, some fvState, none⟩,
   ⟨"City", "city", .strK, none, none⟩]

/-- Initial values for the two-string-field fixtures. -/
def twoStr : List FieldValue := [.vStr "", .vStr ""]

/-- A validation error used by the city setter fixtures. -/
def vErrCity : ValidationError := ⟨"city", "city is required"⟩

/-- Setter fixture returning a `*ValidationError` on empty input and
otherwise storing the first value into its own field (index 0). -/
def fsCitySet : List String → List FieldValue → Option GoError × List FieldValue :=
  fun vs vals =>
    if vs.isEmpty then (some (.vErr vErrCity), vals)
    else (none, vals.set 0 (.vStr (vs.headD "")))

/-- The city field with the `*ValidationError`-returning setter. -/
def cFieldCity : FieldSpec := ⟨"City", "city", .strK, none, some fsCitySet⟩

/-- A plain tagged string field. -/
def cFieldLast : FieldSpec := ⟨"LastName", "last_name", .strK, none, none⟩

/-- Struct with the `*ValidationError`-returning setter and a plain
field after it. -/
def cFields : List FieldSpec := [cFieldCity, cFieldLast]

/-- Setter fixture returning a plain (non-validation) error on empty
input. -/
def fsCityFatal : List String → List FieldValue → Option GoError × List FieldValue :=
  fun vs vals =>
    if vs.isEmpty then (some (.fatalMsg "city is required"), vals)
    else (none, vals.set 0 (.vStr (vs.headD "")))

/-- The city field with the plain-error setter. -/
def bFieldCity : FieldSpec := ⟨"City", "city", .strK, none, some fsCityFatal⟩

/-- Struct with the plain-error setter and a plain field after it. -/
def bFields : List FieldSpec := [bFieldCity, cFieldLast]

/-- Input with a failing-validation key followed by a plain key. -/
def demoInput : List (String × List String) := [("state", [""]), ("city", ["G"])]

/-! ### Helper lemmas about the scan loop -/

/-- A nil `findIn` result makes `walkAux` continue unchanged. -/
theorem walkAux_cons_ok (verrs : List ValidationError) (d d1 : Dest) (k : String)
    (vs : List String) (rest : List (String × List String))
    (h : findIn d k vs = (.ok, d1)) :
    walkAux verrs d ((k, vs) :: rest) = walkAux verrs d1 rest := by
  simp [walkAux, h]

/-- A `*ValidationError` from `findIn` is appended and the loop
continues. -/
theorem walkAux_cons_verr (verrs : List ValidationError) (d d1 : Dest) (k : String)
    (vs : List String) (rest : List (String × List String)) (ve : ValidationError)
    (h : findIn d k vs = (.err (.vErr ve), d1)) :
    walkAux verrs d ((k, vs) :: rest) = walkAux (verrs ++ [ve]) d1 rest := by
  simp [walkAux, h]

/-- Any other error from `findIn` returns at once. -/
theorem walkAux_cons_fatal (verrs : List ValidationError) (d d1 : Dest) (k : String)
    (vs : List String) (rest : List (String × List String)) (e : GoError)
    (h : findIn d k vs = (.err e, d1)) (hne : ∀ ve, e ≠ .vErr ve) :
    walkAux verrs d ((k, vs) :: rest) = (.err e, d1) := by
  cases e with
  | vErr ve => exact absurd rfl (hne ve)
  | compound errs => simp [walkAux, h]
  | fatalMsg m => simp [walkAux, h]
  | numErr a b c => simp [walkAux, h]

/-- When the scan completes, `walkAux` returns the accumulated and
collected validation errors as a compound error, or nil when there are
none. -/
theorem walkAux_scan (v : List (String × List String)) :
    ∀ (d : Dest) (verrs es : List ValidationError), scanVErrs d v = some es →
    (walkAux verrs d v).1 =
      if (verrs ++ es).isEmpty then ErrOut.ok
      else ErrOut.err (.compound (verrs ++ es)) := by
  induction v with
  | nil =>
    intro d verrs es h
    simp [scanVErrs] at h
    subst h
    simp [walkAux]
  | cons kv rest ih =>
    intro d verrs es h
    obtain ⟨k, vs⟩ := kv
    rcases hfi : findIn d k vs with ⟨e, d1⟩
    cases e with
    | ok =>
      rw [walkAux_cons_ok verrs d d1 k vs rest hfi]
      exact ih d1 verrs es (by simpa [scanVErrs, hfi] using h)
    | err ge =>
      cases ge with
      | vErr ve =>
        rw [walkAux_cons_verr verrs d d1 k vs rest ve hfi]
        simp only [scanVErrs, hfi, Option.map_eq_some'] at h
        obtain ⟨es1, hes1, rfl⟩ := h
        have := ih d1 (verrs ++ [ve]) es1 hes1
        simpa [List.append_assoc] using this
      | compound errs => simp [scanVErrs, hfi] at h
      | fatalMsg m => simp [scanVErrs, hfi] at h
      | numErr a b c => simp [scanVErrs, hfi] at h
    | panicked m => simp [scanVErrs, hfi] at h

/-- The field loop processes exactly the first field whose resolved
name matches the key. -/
theorem assignToStructGo_found (key : String) (vals : List FieldValue)
    (values : List String) (fields : List FieldSpec) :
    ∀ (i j : Nat) (f : FieldSpec), findFieldFrom key i fields = some (j, f) →
    assignToStructGo vals key values i fields = processField vals values j f := by
  induction fields with
  | nil => intro i j f h; simp [findFieldFrom] at h
  | cons g rest ih =>
    intro i j f h
    by_cases hg : (resolvedTag g).name = key
    · simp only [findFieldFrom, if_pos hg, Option.some.injEq, Prod.mk.injEq] at h
      obtain ⟨rfl, rfl⟩ := h
      simp [assignToStructGo, hg]
    · simp only [findFieldFrom, if_neg hg] at h
      rw [assignToStructGo, if_neg hg]
      exact ih (i + 1) j f h

/-- The field found by `findFieldFrom` resolves to the key. -/
theorem findFieldFrom_name (key : String) (fields : List FieldSpec) :
    ∀ (i j : Nat) (f : FieldSpec), findFieldFrom key i fields = some (j, f) →
    (resolvedTag f).name = key := by
  induction fields with
  | nil => intro i j f h; simp [findFieldFrom] at h
  | cons g rest ih =>
    intro i j f h
    by_cases hg : (resolvedTag g).name = key
    · simp only [findFieldFrom, if_pos hg, Option.some.injEq, Prod.mk.injEq] at h
      obtain ⟨-, rfl⟩ := h
      exact hg
    · simp only [findFieldFrom, if_neg hg] at h
      exact ih (i + 1) j f h

/-- The option segments of a tag never change its name or its ignore
marker. -/
theorem applyTagOption_preserves (t : Tag) (p : String) :
    (applyTagOption t p).name = t.name ∧ (applyTagOption t p).ignore = t.ignore := by
  unfold applyTagOption
  split_ifs <;> simp

/-- Folding option segments never changes the name or the ignore
marker. -/
theorem foldl_applyTagOption_preserves (l : List String) :
    ∀ t : Tag, ((l.foldl applyTagOption t).name = t.name)
      ∧ ((l.foldl applyTagOption t).ignore = t.ignore) := by
  induction l with
  | nil => intro t; simp
  | cons p rest ih =>
    intro t
    have h1 := applyTagOption_preserves t p
    have h2 := ih (applyTagOption t p)
    simp only [List.foldl_cons]
    exact ⟨h2.1.trans h1.1, h2.2.trans h1.2⟩

/-- An ignored tag has an empty name: only the `-` marker sets
`ignore`, and that branch leaves the name empty. -/
theorem parseTag_ignore_name (s : String) :
    (parseTag s).ignore = true → (parseTag s).name = "" := by
  unfold parseTag
  dsimp only
  intro h
  split_ifs at h ⊢ with h0 h1 h2
  · rfl
  · exfalso
    rw [(foldl_applyTagOption_preserves _ _).2] at h
    simp [zeroTag] at h
  · rw [(foldl_applyTagOption_preserves _ _).1]
    rfl
  · exfalso
    rw [(foldl_applyTagOption_preserves _ _).2] at h
    simp [zeroTag] at h

/-- Processing a matched field whose validator passes and whose setter
returns an error yields that error with the state the setter left. -/
theorem processField_setter_err (vals vals2 : List FieldValue) (values : List String)
    (i : Nat) (f : FieldSpec)
    (fs : List String → List FieldValue → Option GoError × List FieldValue)
    (e : GoError)
    (hv : ∀ g, f.validator = some g → g values = none)
    (hs : f.setter = some fs)
    (hr : fs values vals = (some e, vals2)) :
    processField vals values i f = (.err e, vals2) := by
  cases hval : f.validator with
  | none => simp [processField, hval, assignMatched, hs, hr]
  | some g => simp [processField, hval, hv g hval, assignMatched, hs, hr]

/-! ### Claim theorems -/

/-- C1: every validator failure encountered during one Unmarshal scan
is collected. First conjunct: when the scan completes (no fatal error,
no panic), walk returns exactly the encountered validation failures as
a Compound Validation Error, and nil success when there are none.
Second conjunct: a validator failure for a key returns the validation
error without assigning the field (the values are unchanged). Third
conjunct: a validation-classified error does not stop the scan — walk
continues over the remaining keys with the error appended. -/
theorem c1_validation_errors_collected :
    (∀ (d : Dest) (v : List (String × List String)) (es : List ValidationError),
      scanVErrs d v = some es →
      (walk d v).1 = if es.isEmpty then ErrOut.ok else ErrOut.err (.compound es))
    ∧ (∀ (fields : List FieldSpec) (vals : List FieldValue) (key : String)
        (values : List String) (i : Nat) (f : FieldSpec)
        (fv : List String → Option ValidationError) (ve : ValidationError),
        findField key fields = some (i, f) → f.validator = some fv →
        fv values = some ve →
        assignToStruct fields vals key values = (.err (.vErr ve), vals))
    ∧ (∀ (d d1 : Dest) (k : String) (vs : List String)
        (rest : List (String × List String)) (ve : ValidationError),
        findIn d k vs = (.err (.vErr ve), d1) →
        walk d ((k, vs) :: rest) = walkAux [ve] d1 rest) := by
  refine ⟨?_, ?_, ?_⟩
  · intro d v es h
    have := walkAux_scan v d [] es h
    simpa using this
  · intro fields vals key values i f fv ve hf hval hve
    rw [assignToStruct, assignToStructGo_found key vals values fields 0 i f hf]
    simp [processField, hval, hve]
  · intro d d1 k vs rest ve hfi
    rw [walk, walkAux_cons_verr [] d d1 k vs rest ve hfi]
    rfl

/-- Witness for C1 at a concrete struct and input: the scan completes
with one collected validator failure and walk returns exactly that
compound error. -/
theorem c1_validation_errors_collected_witness :
    scanVErrs (.structDest sFields twoStr) demoInput = some [vErrState]
    ∧ (walk (.structDest sFields twoStr) demoInput).1
        = ErrOut.err (.compound [vErrState]) :=
  ⟨rfl, by
    have := c1_validation_errors_collected.1 (.structDest sFields twoStr)
      demoInput [vErrState] rfl
    simpa using this⟩

/-- C2 counterexample: a setter returning a non-nil error of dynamic
type ValidationError does not abort the call. Below, the first key
reaches the failing setter, yet the second key is still processed
(LastName becomes "B") and the final result is a Compound Validation
Error rather than the setter error returned immediately. -/
theorem c2_setter_fatal_counterexample :
    Unmarshal [("city", []), ("last_name", ["B"])]
        (.ptrTo (.structDest cFields twoStr))
      = (.err (.compound [vErrCity]),
         some (.structDest cFields [.vStr "", .vStr "B"])) := rfl

/-- C2 amended: if the field matched by a key has a setter and the
setter returns a non-nil error that is NOT a ValidationError, the call
returns that error at once (unwrapped), with the record exactly as the
setter left it and the remaining keys unprocessed. -/
theorem c2_setter_fatal_amended
    (fields : List FieldSpec) (vals vals2 : List FieldValue) (k : String)
    (vs : List String) (rest : List (String × List String)) (i : Nat)
    (f : FieldSpec)
    (fs : List String → List FieldValue → Option GoError × List FieldValue)
    (e : GoError)
    (hf : findField k fields = some (i, f))
    (hv : ∀ g, f.validator = some g → g vs = none)
    (hs : f.setter = some fs)
    (hr : fs vs vals = (some e, vals2))
    (hne : ∀ ve, e ≠ .vErr ve) :
    Unmarshal ((k, vs) :: rest) (.ptrTo (.structDest fields vals))
      = (.err e, some (.structDest fields vals2)) := by
  have hpf := processField_setter_err vals vals2 vs i f fs e hv hs hr
  have hstruct : assignToStruct fields vals k vs = (.err e, vals2) := by
    rw [assignToStruct, assignToStructGo_found k vals vs fields 0 i f hf, hpf]
  have hstep : findIn (.structDest fields vals) k vs
      = (.err e, .structDest fields vals2) := by
    simp [findIn, hstruct]
  have hw : walk (.structDest fields vals) ((k, vs) :: rest)
      = (.err e, .structDest fields vals2) := by
    rw [walk]
    exact walkAux_cons_fatal [] _ _ k vs rest e hstep hne
  simp [Unmarshal, hw]

/-- Witness for the amended C2: a concrete setter returning a plain
error on the first key makes Unmarshal return that error at once, the
second key unprocessed. -/
theorem c2_setter_fatal_amended_witness :
    (findField "city" bFields = some (0, bFieldCity)
      ∧ bFieldCity.setter = some fsCityFatal
      ∧ fsCityFatal [] twoStr = (some (.fatalMsg "city is required"), twoStr))
    ∧ Unmarshal [("city", []), ("last_name", ["B"])]
        (.ptrTo (.structDest bFields twoStr))
      = (.err (.fatalMsg "city is required"), some (.structDest bFields twoStr)) :=
  ⟨⟨rfl, rfl, rfl⟩,
    c2_setter_fatal_amended bFields twoStr twoStr "city" [] [("last_name", ["B"])]
      0 bFieldCity fsCityFatal (.fatalMsg "city is required") rfl
      (fun g h => nomatch h) rfl rfl (fun ve h => nomatch h)⟩

/-- C3 (code-bug evidence): coercing the integer field from ["abc"]
produces a strconv parse error, yet Unmarshal on the same input
returns nil and leaves the field at zero. The raw-assignment branch of
assignToStruct drops the error from assignToStructField (the source
logs it and returns nil), so the parse failure never surfaces and
processing is not halted. -/
theorem c3_parse_error_swallowed :
    assignToStructField .intK ["abc"]
      = .res (some (.numErr "ParseInt" "abc" "invalid syntax")) none
    ∧ Unmarshal [("age", ["abc"])] (.ptrTo (.structDest aFields [.vInt 0]))
      = (.ok, some (.structDest aFields [.vInt 0])) := ⟨rfl, rfl⟩

/-- C4 counterexample: with an EMPTY input mapping and a destination
that can store nothing, Unmarshal returns nil success — not the fatal
configuration error. The destination check lives inside the per-key
findIn and is never reached when there are no keys. -/
theorem c4_bad_dest_counterexample :
    Unmarshal [] (.ptrTo (.otherDest "int")) = (.ok, some (.otherDest "int")) := rfl

/-- C4 amended: the "cannot be used to store values" fatal error is
returned as soon as the first key of a NON-EMPTY input mapping is
processed, before any assignment, with the destination untouched; on
an empty mapping Unmarshal returns success instead. -/
theorem c4_bad_dest_amended (t k : String) (vs : List String)
    (rest : List (String × List String)) :
    Unmarshal ((k, vs) :: rest) (.ptrTo (.otherDest t))
      = (.err (.fatalMsg ("object " ++ t ++ " cannot be used to store values")),
         some (.otherDest t))
    ∧ Unmarshal [] (.ptrTo (.otherDest t)) = (.ok, some (.otherDest t)) := by
  constructor
  · simp [Unmarshal, walk, walkAux, findIn]
  · rfl

/-- C5 counterexample: the EMPTY input key resolves to the field
tagged "-": decoding key "" mutates the ignored Processed field, so
the claim that no input key can ever resolve to an ignored field
fails. -/
theorem c5_ignore_counterexample :
    Unmarshal [("", ["x"])] (.ptrTo (.structDest iFields twoStr))
      = (.ok, some (.structDest iFields [.vStr "x", .vStr ""])) := rfl

/-- C5 amended: parsing "-" yields the descriptor with ignore set and
empty name, and no NON-EMPTY key can resolve to an ignored field: the
field match compares the resolved tag name, which stays empty exactly
for ignored fields, so only the empty key reaches them. -/
theorem c5_ignore_amended :
    parseTag "-"
      = { name := "", pfx := "", sfx := "", omitempty := false,
          ignore := true, group := false }
    ∧ (∀ (key : String) (fields : List FieldSpec) (i : Nat) (f : FieldSpec),
        key ≠ "" → findField key fields = some (i, f) →
        (parseTag f.rawTag).ignore = false) := by
  refine ⟨by decide, ?_⟩
  intro key fields i f hk hf
  cases hig : (parseTag f.rawTag).ignore with
  | false => rfl
  | true =>
    exfalso
    have hname := parseTag_ignore_name f.rawTag hig
    have hres : resolvedTag f = parseTag f.rawTag := by
      unfold resolvedTag
      dsimp only
      rw [if_neg]
      intro hc
      rw [hig] at hc
      exact absurd rfl hc.1
    have hn := findFieldFrom_name key fields 0 i f hf
    rw [hres, hname] at hn
    exact hk hn.symm

/-- Witness for the amended C5: the non-empty key "name" resolves past
the ignored field to the second, non-ignored field. -/
theorem c5_ignore_amended_witness :
    (("name" : String) ≠ ""
      ∧ findField "name" iFields = some (1, ⟨"Name", "name", .strK, none, none⟩))
    ∧ (parseTag "name").ignore = false :=
  ⟨⟨by decide, rfl⟩,
    c5_ignore_amended.2 "name" iFields 1 ⟨"Name", "name", .strK, none, none⟩
      (by decide) rfl⟩

/-- C6: text-field coercion takes values[0] verbatim and requires a
non-empty list: with at least one value it succeeds and writes the
first value; with the empty list the unguarded index access panics
(out-of-range) instead of reporting an error. -/
theorem c6_text_coercion (values : List String) :
    (values ≠ [] → assignToStructField .strK values
      = .res none (some (.vStr (values.headD ""))))
    ∧ (values = [] → assignToStructField .strK values = .panicked outOfRangeMsg) := by
  cases values with
  | nil => exact ⟨fun h => absurd rfl h, fun _ => rfl⟩
  | cons v rest => exact ⟨fun _ => rfl, fun h => nomatch h⟩

/-- Witness for C6 at the singleton list ["Matt"] and at the empty
list. -/
theorem c6_text_coercion_witness :
    ((["Matt"] : List String) ≠ []
      ∧ assignToStructField .strK ["Matt"] = .res none (some (.vStr "Matt")))
    ∧ assignToStructField .strK [] = .panicked outOfRangeMsg :=
  ⟨⟨by decide, (c6_text_coercion ["Matt"]).1 (by decide)⟩,
    (c6_text_coercion []).2 rfl⟩

/-- C7: integer coercion from ["1999"] succeeds with 1999, and from
the empty list succeeds with 0 — empty input is treated as "0", not as
an error. -/
theorem c7_int_coercion :
    assignToStructField .intK ["1999"] = .res none (some (.vInt 1999))
    ∧ assignToStructField .intK [] = .res none (some (.vInt 0)) := ⟨rfl, rfl⟩

/-- C8: an untagged field resolves to a descriptor named after its own
identifier, and decoding the first_name mapping sets FirstName to
"Matt" while LastName keeps its zero value. -/
theorem c8_untagged_field_default_name :
    resolvedTag ⟨"LastName", "", .strK, none, none⟩
      = { name := "LastName", pfx := "", sfx := "", omitempty := false,
          ignore := false, group := false }
    ∧ Unmarshal [("first_name", ["Matt"])] (.ptrTo (.structDest pFields twoStr))
      = (.ok, some (.structDest pFields [.vStr "Matt", .vStr ""])) := ⟨rfl, rfl⟩

/-- C9: the tag parser is total (it is a Lean function) and parses the
christmas-tree tag to the expected descriptor; each segment after the
first is matched independently — any unrecognized segment leaves the
descriptor unchanged, and every order of the three option segments
yields the same descriptor. -/
theorem c9_parse_tag_segments :
    parseTag "name,prefix=pre_,suffix=suf_,omitempty"
      = { name := "name", pfx := "pre_", sfx := "suf_", omitempty := true,
          ignore := false, group := false }
    ∧ (∀ (t : Tag) (p : String),
        p ≠ "omitempty" → goHasPfx p "prefix=" = false →
        goHasPfx p "suffix=" = false → applyTagOption t p = t)
    ∧ (parseTag "name,prefix=pre_,omitempty,suffix=suf_"
        = { name := "name", pfx := "pre_", sfx := "suf_", omitempty := true,
            ignore := false, group := false }
      ∧ parseTag "name,suffix=suf_,prefix=pre_,omitempty"
        = { name := "name", pfx := "pre_", sfx := "suf_", omitempty := true,
            ignore := false, group := false }
      ∧ parseTag "name,suffix=suf_,omitempty,prefix=pre_"
        = { name := "name", pfx := "pre_", sfx := "suf_", omitempty := true,
            ignore := false, group := false }
      ∧ parseTag "name,omitempty,prefix=pre_,suffix=suf_"
        = { name := "name", pfx := "pre_", sfx := "suf_", omitempty := true,
            ignore := false, group := false }
      ∧ parseTag "name,omitempty,suffix=suf_,prefix=pre_"
        = { name := "name", pfx := "pre_", sfx := "suf_", omitempty := true,
            ignore := false, group := false }) := by
  refine ⟨by decide, ?_, by decide, by decide, by decide, by decide, by decide⟩
  intro t p h1 h2 h3
  simp [applyTagOption, h1, h2, h3]

/-- Witness for C9 on the unrecognized segment "bogus". -/
theorem c9_parse_tag_segments_witness :
    (("bogus" : String) ≠ "omitempty" ∧ goHasPfx "bogus" "prefix=" = false
      ∧ goHasPfx "bogus" "suffix=" = false)
    ∧ applyTagOption zeroTag "bogus" = zeroTag :=
  ⟨⟨by decide, by decide, by decide⟩,
    c9_parse_tag_segments.2.1 zeroTag "bogus" (by decide) (by decide) (by decide)⟩

/-- C10: the engine classifies per-key errors solely by dynamic type.
First conjunct: a setter returning a *ValidationError is appended to
the compound list and the scan continues over the remaining keys.
Second conjunct: any error that is not a *ValidationError aborts the
scan at once. -/
theorem c10_error_classified_by_type :
    (∀ (fields : List FieldSpec) (vals vals2 : List FieldValue) (k : String)
      (vs : List String) (rest : List (String × List String)) (i : Nat)
      (f : FieldSpec)
      (fs : List String → List FieldValue → Option GoError × List FieldValue)
      (ve : ValidationError),
      findField k fields = some (i, f) →
      (∀ g, f.validator = some g → g vs = none) →
      f.setter = some fs →
      fs vs vals = (some (.vErr ve), vals2) →
      walk (.structDest fields vals) ((k, vs) :: rest)
        = walkAux [ve] (.structDest fields vals2) rest)
    ∧ (∀ (d d1 : Dest) (k : String) (vs : List String)
        (rest : List (String × List String)) (e : GoError),
        findIn d k vs = (.err e, d1) → (∀ ve, e ≠ .vErr ve) →
        walk d ((k, vs) :: rest) = (.err e, d1)) := by
  constructor
  · intro fields vals vals2 k vs rest i f fs ve hf hv hs hr
    have hpf := processField_setter_err vals vals2 vs i f fs (.vErr ve) hv hs hr
    have hstruct : assignToStruct fields vals k vs = (.err (.vErr ve), vals2) := by
      rw [assignToStruct, assignToStructGo_found k vals vs fields 0 i f hf, hpf]
    have hstep : findIn (.structDest fields vals) k vs
        = (.err (.vErr ve), .structDest fields vals2) := by
      simp [findIn, hstruct]
    rw [walk, walkAux_cons_verr [] _ _ k vs rest ve hstep]
    rfl
  · intro d d1 k vs rest e hfi hne
    rw [walk]
    exact walkAux_cons_fatal [] d d1 k vs rest e hfi hne

/-- Witness for C10: the concrete *ValidationError-returning setter is
collected and the scan continues to the next key. -/
theorem c10_error_classified_by_type_witness :
    (findField "city" cFields = some (0, cFieldCity)
      ∧ cFieldCity.setter = some fsCitySet
      ∧ fsCitySet [] twoStr = (some (.vErr vErrCity), twoStr))
    ∧ walk (.structDest cFields twoStr) [("city", []), ("last_name", ["B"])]
        = walkAux [vErrCity] (.structDest cFields twoStr) [("last_name", ["B"])] :=
  ⟨⟨rfl, rfl, rfl⟩,
    c10_error_classified_by_type.1 cFields twoStr twoStr "city" []
      [("last_name", ["B"])] 0 cFieldCity fsCitySet vErrCity rfl
      (fun g h => nomatch h) rfl rfl⟩

end Form
